import Mathlib

/-!
Shallow embedding of the CycloneDDS throughput benchmark scripts
(`scripts/dds_pub.py` and `scripts/dds_sub.py`).

Time is modelled by rationals.  The publisher's timeline is driven by an
abstract per-message write duration `wdur : ℕ → ℚ`; sleeps advance the
timeline by exactly the requested amount.  The subscriber's calls to
`time.perf_counter()` are modelled by an abstract call-indexed clock
`clock : ℕ → ℚ` (call 0 is `start_wait`), and the transport's `take`
results by a poll-indexed trace `trace : ℕ → List Sample`.  The
subscriber loop is given explicit fuel; `none` means the fuel ran out
before the loop left its `while`.
-/

/-- Payload generator of `dds_pub.py`: `bytes(i % 256 for i in range(size))`. -/
def make_data_bytes (size : ℕ) : List ℕ :=
  (List.range size).map (fun i => i % 256)

/-- Publisher interval setup: `interval = 1.0 / rate` when `rate > 0`, else `0`. -/
def pubInterval (rate : ℚ) : ℚ :=
  if 0 < rate then 1 / rate else 0

/-- Pacing decision in the publisher's send loop body: the time actually
slept after send `i` (0-based) when the current time is `now` and the
sending phase started at `start_time`. -/
def sleepDecision (rate now start_time : ℚ) (i : ℕ) : ℚ :=
  let interval := pubInterval rate
  if 0 < interval then
    let elapsed := now - start_time
    let expected := ((i : ℚ) + 1) * interval
    let sleep_time := expected - elapsed
    if 0 < sleep_time then sleep_time else 0
  else 0

/-- Target send instant of message `i` relative to the start:
`expected = (i + 1) * interval`. -/
def pacerExpected (rate : ℚ) (i : ℕ) : ℚ :=
  ((i : ℚ) + 1) * pubInterval rate

/-- One iteration of the publisher's send loop: the write of message `i`
takes `wdur i` seconds, then the pacing sleep (if any) is applied. -/
def pubStep (rate start_time : ℚ) (wdur : ℕ → ℚ) (t : ℚ) (i : ℕ) : ℚ :=
  let t1 := t + wdur i
  t1 + sleepDecision rate t1 start_time i

/-- Fixed pre-roll wait before the first send (`time.sleep(2)`). -/
def connectWait : ℚ := 2

/-- Grace period after the last send, only for the reliable preset
(`time.sleep(1)` when `qos == reliable`). -/
def drainWait (reliable : Bool) : ℚ :=
  if reliable then 1 else 0

/-- Wall-clock instant at which the send loop finishes, starting the
process at instant 0 and hence the sending phase at `connectWait`. -/
def pubEndTime (rate : ℚ) (count : ℕ) (wdur : ℕ → ℚ) : ℚ :=
  (List.range count).foldl (pubStep rate connectWait wdur) connectWait

/-- The publisher's measured span `end_time - start_time`. -/
def pubElapsed (rate : ℚ) (count : ℕ) (wdur : ℕ → ℚ) : ℚ :=
  pubEndTime rate count wdur - connectWait

/-- Publisher result block: message rate, MiB/s rate and Mbps rate, from
`total_bytes = args.size * args.count`. -/
def pubReport (count size : ℕ) (elapsed : ℚ) : ℚ × ℚ × ℚ :=
  let total_bytes : ℕ := size * count
  let throughput_msgs := (count : ℚ) / elapsed
  let throughput_bytes := (total_bytes : ℚ) / elapsed
  let throughput_mbps := throughput_bytes / (1024 * 1024)
  (throughput_msgs, throughput_mbps, throughput_mbps * 8)

/-- Instant at which the publisher process is done (send loop end plus
the reliable drain wait, if any). -/
def pubFinalTime (reliable : Bool) (rate : ℚ) (count : ℕ) (wdur : ℕ → ℚ) : ℚ :=
  pubEndTime rate count wdur + drainWait reliable

/-- A polled item: either a genuine `BenchmarkData` sample carrying a
payload, or a lifecycle/control item (disposed or unregistered instance)
that fails the `isinstance(sample, BenchmarkData)` test. -/
inductive Sample where
  | data (payload : List ℕ)
  | notice
deriving DecidableEq, Repr

/-- Whether an item passes the `isinstance(sample, BenchmarkData)` test. -/
def Sample.isData : Sample → Bool
  | .data _ => true
  | .notice => false

/-- Payload length contributed by an item (`len(sample.data)` for data,
nothing for filtered items). -/
def Sample.dataLen : Sample → ℕ
  | .data payload => payload.length
  | .notice => 0

/-- Mutable state of the subscriber's receive loop: the Reception Window
`(received_count, total_bytes, first_msg_time, last_msg_time)` plus the
index of the next `perf_counter` call and the next poll. -/
structure RecvState where
  received : ℕ
  totalBytes : ℕ
  first : Option ℚ
  last : Option ℚ
  clockIdx : ℕ
  pollIdx : ℕ
deriving DecidableEq, Repr

/-- State at loop entry: window zeroed, `start_wait` was clock call 0. -/
def recvInit : RecvState :=
  ⟨0, 0, none, none, 1, 0⟩

/-- Per-sample body of the subscriber's `for sample in samples` loop. -/
def processSample (now : ℚ) (s : RecvState) : Sample → RecvState
  | .notice => s
  | .data payload =>
      { s with
        first := if s.first = none then some now else s.first,
        last := some now,
        received := s.received + 1,
        totalBytes := s.totalBytes + payload.length }

/-- Processing of one non-empty polled batch at arrival instant `now`. -/
def processBatch (now : ℚ) (batch : List Sample) (s : RecvState) : RecvState :=
  batch.foldl (processSample now) s

/-- Terminal states of the receive loop. -/
inductive Terminal where
  | complete
  | timeout
deriving DecidableEq, Repr

/-- The subscriber's `while received_count < args.count` loop.  Each
iteration reads the clock for the timeout check; on a non-empty batch it
reads the clock once more for `now` and folds the batch into the window;
on an empty batch it just sleeps.  `none` means the fuel was exhausted
while the loop was still running. -/
def runLoop (count : ℕ) (timeout : ℚ) (clock : ℕ → ℚ) (trace : ℕ → List Sample) :
    ℕ → RecvState → Option (Terminal × RecvState)
  | 0, _ => none
  | fuel + 1, s =>
    if s.received < count then
      if timeout < clock s.clockIdx - clock 0 then
        some (Terminal.timeout, { s with clockIdx := s.clockIdx + 1 })
      else if (trace s.pollIdx).isEmpty then
        runLoop count timeout clock trace fuel
          { s with clockIdx := s.clockIdx + 1, pollIdx := s.pollIdx + 1 }
      else
        runLoop count timeout clock trace fuel
          (processBatch (clock (s.clockIdx + 1)) (trace s.pollIdx)
            { s with clockIdx := s.clockIdx + 2, pollIdx := s.pollIdx + 1 })
    else some (Terminal.complete, s)

/-- Reported rate figures; `inf` models the Python value `float('inf')`. -/
inductive ThroughputVal where
  | finite (q : ℚ)
  | inf
deriving DecidableEq, Repr

/-- Python truthiness of an optional float: `None` and `0.0` are falsy. -/
def pyTruthy : Option ℚ → Bool
  | none => false
  | some q => decide (q ≠ 0)

/-- Final throughput computation of `dds_sub.py`
(`if first_msg_time and last_msg_time and received_count > 1: ...`),
returning `(elapsed, throughput_msgs, throughput_mbps)`. -/
def subComputeThroughput (first last : Option ℚ) (received totalBytes : ℕ) :
    ℚ × ThroughputVal × ThroughputVal :=
  if pyTruthy first && pyTruthy last && decide (1 < received) then
    let elapsed := last.getD 0 - first.getD 0
    if 0 < elapsed then
      (elapsed, ThroughputVal.finite (((received : ℚ) - 1) / elapsed),
        ThroughputVal.finite ((totalBytes : ℚ) / elapsed / (1024 * 1024)))
    else
      (elapsed, ThroughputVal.inf, ThroughputVal.inf)
  else
    (0, ThroughputVal.finite 0, ThroughputVal.finite 0)

/-- The printed Mbps figure: `throughput_mbps * 8`. -/
def subBitRate : ThroughputVal → ThroughputVal
  | .finite q => .finite (q * 8)
  | .inf => .inf

/-- Loss figure: printed only when `received_count < args.count`. -/
def lossReport (received expected : ℕ) : Option ℚ :=
  if received < expected then
    some (((expected : ℚ) - (received : ℚ)) / (expected : ℚ) * 100)
  else
    none

lemma processBatch_nil (now : ℚ) (s : RecvState) : processBatch now [] s = s := rfl

lemma processBatch_cons (now : ℚ) (a : Sample) (l : List Sample) (s : RecvState) :
    processBatch now (a :: l) s = processBatch now l (processSample now s a) := rfl

lemma processBatch_received (now : ℚ) (batch : List Sample) :
    ∀ s : RecvState,
      (processBatch now batch s).received = s.received + batch.countP Sample.isData := by
  induction batch with
  | nil => intro s; simp [processBatch_nil]
  | cons a l ih =>
    intro s
    rw [processBatch_cons, ih]
    cases a <;> simp [processSample, List.countP_cons, Sample.isData]
    omega

lemma processBatch_totalBytes (now : ℚ) (batch : List Sample) :
    ∀ s : RecvState,
      (processBatch now batch s).totalBytes =
        s.totalBytes + (batch.map Sample.dataLen).sum := by
  induction batch with
  | nil => intro s; simp [processBatch_nil]
  | cons a l ih =>
    intro s
    rw [processBatch_cons, ih]
    cases a <;> simp [processSample, Sample.dataLen]
    omega

lemma processBatch_clockIdx (now : ℚ) (batch : List Sample) :
    ∀ s : RecvState, (processBatch now batch s).clockIdx = s.clockIdx := by
  induction batch with
  | nil => intro s; rfl
  | cons a l ih =>
    intro s
    rw [processBatch_cons, ih]
    cases a <;> rfl

lemma processBatch_pollIdx (now : ℚ) (batch : List Sample) :
    ∀ s : RecvState, (processBatch now batch s).pollIdx = s.pollIdx := by
  induction batch with
  | nil => intro s; rfl
  | cons a l ih =>
    intro s
    rw [processBatch_cons, ih]
    cases a <;> rfl

lemma processBatch_first_some (now : ℚ) (batch : List Sample) :
    ∀ (s : RecvState) (v : ℚ), s.first = some v →
      (processBatch now batch s).first = some v := by
  induction batch with
  | nil => intro s v hv; simpa [processBatch_nil] using hv
  | cons a l ih =>
    intro s v hv
    rw [processBatch_cons]
    cases a with
    | notice => exact ih s v hv
    | data payload =>
      apply ih
      simp [processSample, hv]

lemma processBatch_first_of_data (now : ℚ) (batch : List Sample) :
    ∀ s : RecvState, s.first = none → batch.any Sample.isData = true →
      (processBatch now batch s).first = some now := by
  induction batch with
  | nil => intro s _ hany; simp at hany
  | cons a l ih =>
    intro s hnone hany
    rw [processBatch_cons]
    cases a with
    | notice =>
      refine ih s hnone ?_
      simpa [Sample.isData] using hany
    | data payload =>
      apply processBatch_first_some
      simp [processSample, hnone]

lemma processBatch_last_stable (now : ℚ) (batch : List Sample) :
    ∀ s : RecvState, s.last = some now →
      (processBatch now batch s).last = some now := by
  induction batch with
  | nil => intro s h; simpa [processBatch_nil] using h
  | cons a l ih =>
    intro s h
    rw [processBatch_cons]
    cases a with
    | notice => exact ih s h
    | data payload =>
      apply ih
      simp [processSample]

lemma processBatch_last_of_data (now : ℚ) (batch : List Sample) :
    ∀ s : RecvState, batch.any Sample.isData = true →
      (processBatch now batch s).last = some now := by
  induction batch with
  | nil => intro s hany; simp at hany
  | cons a l ih =>
    intro s hany
    rw [processBatch_cons]
    cases a with
    | notice =>
      refine ih s ?_
      simpa [Sample.isData] using hany
    | data payload =>
      apply processBatch_last_stable
      simp [processSample]

lemma runLoop_window_mono (count : ℕ) (timeout : ℚ) (clock : ℕ → ℚ)
    (trace : ℕ → List Sample) :
    ∀ (fuel : ℕ) (s : RecvState) (t : Terminal) (s' : RecvState),
      runLoop count timeout clock trace fuel s = some (t, s') →
      s.received ≤ s'.received ∧ s.totalBytes ≤ s'.totalBytes ∧
        ∀ v, s.first = some v → s'.first = some v := by
  intro fuel
  induction fuel with
  | zero => intro s t s' h; simp [runLoop] at h
  | succ fuel ih =>
    intro s t s' h
    simp only [runLoop] at h
    split_ifs at h with hrc hto hbe
    · simp only [Option.some.injEq, Prod.mk.injEq] at h
      rw [← h.2]
      exact ⟨le_refl _, le_refl _, fun v hv => hv⟩
    · exact ih { s with clockIdx := s.clockIdx + 1, pollIdx := s.pollIdx + 1 } t s' h
    · have hmono := ih (processBatch (clock (s.clockIdx + 1)) (trace s.pollIdx)
        { s with clockIdx := s.clockIdx + 2, pollIdx := s.pollIdx + 1 }) t s' h
      set now := clock (s.clockIdx + 1)
      set batch := trace s.pollIdx
      set s2 : RecvState := { s with clockIdx := s.clockIdx + 2, pollIdx := s.pollIdx + 1 }
      refine ⟨le_trans ?_ hmono.1, le_trans ?_ hmono.2.1, fun v hv => ?_⟩
      · rw [processBatch_received]
        exact Nat.le_add_right _ _
      · rw [processBatch_totalBytes]
        exact Nat.le_add_right _ _
      · exact hmono.2.2 v (processBatch_first_some now batch s2 v hv)
    · simp only [Option.some.injEq, Prod.mk.injEq] at h
      rw [← h.2]
      exact ⟨le_refl _, le_refl _, fun v hv => hv⟩

lemma runLoop_terminal_char (count : ℕ) (timeout : ℚ) (clock : ℕ → ℚ)
    (trace : ℕ → List Sample) :
    ∀ (fuel : ℕ) (s : RecvState) (t : Terminal) (s' : RecvState),
      runLoop count timeout clock trace fuel s = some (t, s') →
      (t = Terminal.complete → count ≤ s'.received) ∧
      (t = Terminal.timeout → timeout < clock (s'.clockIdx - 1) - clock 0) := by
  intro fuel
  induction fuel with
  | zero => intro s t s' h; simp [runLoop] at h
  | succ fuel ih =>
    intro s t s' h
    simp only [runLoop] at h
    split_ifs at h with hrc hto hbe
    · simp only [Option.some.injEq, Prod.mk.injEq] at h
      refine ⟨fun hc => ?_, fun _ => ?_⟩
      · rw [← h.1] at hc; exact absurd hc (by simp)
      · rw [← h.2]
        simpa using hto
    · exact ih { s with clockIdx := s.clockIdx + 1, pollIdx := s.pollIdx + 1 } t s' h
    · exact ih (processBatch (clock (s.clockIdx + 1)) (trace s.pollIdx)
        { s with clockIdx := s.clockIdx + 2, pollIdx := s.pollIdx + 1 }) t s' h
    · simp only [Option.some.injEq, Prod.mk.injEq] at h
      refine ⟨fun _ => ?_, fun ht => ?_⟩
      · rw [← h.2]; exact not_lt.mp hrc
      · rw [← h.1] at ht; exact absurd ht (by simp)

lemma runLoop_isSome (count : ℕ) (timeout : ℚ) (clock : ℕ → ℚ)
    (trace : ℕ → List Sample) (n0 : ℕ)
    (hn0 : ∀ n, n0 ≤ n → timeout < clock n - clock 0) :
    ∀ (fuel : ℕ) (s : RecvState), n0 + 1 ≤ s.clockIdx + fuel → 1 ≤ fuel →
      (runLoop count timeout clock trace fuel s).isSome := by
  intro fuel
  induction fuel with
  | zero => intro s _ h1; omega
  | succ fuel ih =>
    intro s hle _
    have hlow : ¬ (timeout < clock s.clockIdx - clock 0) → s.clockIdx < n0 := by
      intro hto
      by_contra hc
      exact hto (hn0 s.clockIdx (le_of_not_lt hc))
    simp only [runLoop]
    split_ifs with hrc hto hbe
    · simp
    · apply ih
      · simp only [RecvState.mk.injEq]
        omega
      · have := hlow hto
        omega
    · have hci : (processBatch (clock (s.clockIdx + 1)) (trace s.pollIdx)
          { s with clockIdx := s.clockIdx + 2, pollIdx := s.pollIdx + 1 }).clockIdx =
            s.clockIdx + 2 :=
        processBatch_clockIdx _ _ _
      apply ih
      · rw [hci]; omega
      · have := hlow hto
        omega
    · simp

lemma runLoop_empty_tail (count : ℕ) (timeout : ℚ) (clock : ℕ → ℚ)
    (trace : ℕ → List Sample) :
    ∀ (fuel : ℕ) (s : RecvState), (∀ p, s.pollIdx ≤ p → trace p = []) →
      s.received < count →
      ∀ (t : Terminal) (s' : RecvState),
        runLoop count timeout clock trace fuel s = some (t, s') →
        t = Terminal.timeout ∧ s'.received = s.received ∧
          s'.totalBytes = s.totalBytes ∧ s'.first = s.first ∧ s'.last = s.last := by
  intro fuel
  induction fuel with
  | zero => intro s _ _ t s' h; simp [runLoop] at h
  | succ fuel ih =>
    intro s hemp hrc t s' h
    simp only [runLoop, if_pos hrc] at h
    split_ifs at h with hto hbe
    · simp only [Option.some.injEq, Prod.mk.injEq] at h
      exact ⟨h.1.symm, by rw [← h.2], by rw [← h.2], by rw [← h.2], by rw [← h.2]⟩
    · refine ih { s with clockIdx := s.clockIdx + 1, pollIdx := s.pollIdx + 1 }
        (fun p hp => hemp p ?_) hrc t s' h
      have hp' : s.pollIdx + 1 ≤ p := hp
      omega
    · rw [hemp s.pollIdx le_rfl] at hbe
      simp at hbe

lemma runLoop_none_of_bounded (count : ℕ) (timeout : ℚ) (clock : ℕ → ℚ)
    (trace : ℕ → List Sample) (hbnd : ∀ n, clock n - clock 0 ≤ timeout)
    (hempty : ∀ p, trace p = []) :
    ∀ (fuel : ℕ) (s : RecvState), s.received < count →
      runLoop count timeout clock trace fuel s = none := by
  intro fuel
  induction fuel with
  | zero => intro s _; rfl
  | succ fuel ih =>
    intro s hrc
    have h1 : ¬ (timeout < clock s.clockIdx - clock 0) := not_lt.mpr (hbnd s.clockIdx)
    simp only [runLoop, if_pos hrc, if_neg h1, hempty, List.isEmpty_nil, if_true]
    exact ih _ hrc

lemma lossReport_of_lt {received expected : ℕ} (h : received < expected) :
    lossReport received expected =
      some (((expected : ℚ) - (received : ℚ)) / (expected : ℚ) * 100) := by
  simp [lossReport, h]

lemma lossReport_isSome_iff (received expected : ℕ) :
    (lossReport received expected).isSome ↔ received < expected := by
  unfold lossReport
  split_ifs with h <;> simp [h]

/-- C6: only items passing the data-sample test contribute to the
Reception Window; lifecycle notices are silently skipped, so the batch
`[notice, data payload]` adds exactly one message and `payload.length`
bytes. -/
theorem C6_nondata_filtered :
    (∀ (now : ℚ) (batch : List Sample) (s : RecvState),
        (processBatch now batch s).received =
            s.received + batch.countP Sample.isData ∧
        (processBatch now batch s).totalBytes =
            s.totalBytes + (batch.map Sample.dataLen).sum) ∧
    (∀ (now : ℚ) (s : RecvState), processSample now s Sample.notice = s) ∧
    (∀ (now : ℚ) (payload : List ℕ) (s : RecvState),
        (processBatch now [Sample.notice, Sample.data payload] s).received =
            s.received + 1 ∧
        (processBatch now [Sample.notice, Sample.data payload] s).totalBytes =
            s.totalBytes + payload.length) := by
  refine ⟨fun now batch s => ⟨processBatch_received now batch s,
      processBatch_totalBytes now batch s⟩, fun now s => rfl, fun now payload s => ?_⟩
  rw [processBatch_received, processBatch_totalBytes]
  simp [List.countP_cons, Sample.isData, Sample.dataLen]

/-- C1 fails on the code: for a window with `elapsed = 1` second,
1000 received messages and 1048576 total bytes, the subscriber reports
`messageRate = 999` (the code divides `received_count - 1` by the span
between first and last arrival), not 1000 as claimed. -/
theorem C1_counterexample :
    subComputeThroughput (some 1) (some 2) 1000 1048576 =
      (1, ThroughputVal.finite 999, ThroughputVal.finite 1) ∧
    ThroughputVal.finite (999 : ℚ) ≠ ThroughputVal.finite 1000 := by
  constructor
  · norm_num [subComputeThroughput, pyTruthy]
  · intro h
    rw [ThroughputVal.finite.injEq] at h
    norm_num at h

/-- C1 (amended): with both arrival timestamps recorded (and nonzero),
`receivedCount > 1` and `elapsed = last - first > 0`, the subscriber
reports `messageRate = (receivedCount - 1)/elapsed`,
`byteRateMiB = (totalBytes/elapsed)/(1024*1024)`, and
`bitRateMbps = byteRateMiB * 8`; at `(1000, 1048576, 1.0)` this yields
`messageRate = 999`, `byteRateMiB = 1`, `bitRateMbps = 8`. -/
theorem C1_amended_report (a b : ℚ) (received totalBytes : ℕ)
    (ha : a ≠ 0) (hb : b ≠ 0) (hrec : 1 < received) (hel : 0 < b - a) :
    subComputeThroughput (some a) (some b) received totalBytes =
      (b - a, ThroughputVal.finite (((received : ℚ) - 1) / (b - a)),
        ThroughputVal.finite ((totalBytes : ℚ) / (b - a) / (1024 * 1024))) ∧
    subBitRate (ThroughputVal.finite ((totalBytes : ℚ) / (b - a) / (1024 * 1024))) =
      ThroughputVal.finite ((totalBytes : ℚ) / (b - a) / (1024 * 1024) * 8) := by
  refine ⟨?_, rfl⟩
  have hcond : (pyTruthy (some a) && pyTruthy (some b) && decide (1 < received))
      = true := by
    simp [pyTruthy, ha, hb, hrec]
  simp [subComputeThroughput, hcond, hel]

/-- Witness for C1 (amended) at `first = 1`, `last = 2`,
`receivedCount = 1000`, `totalBytes = 1048576`. -/
theorem C1_amended_report_witness :
    subComputeThroughput (some 1) (some 2) 1000 1048576 =
      (2 - 1, ThroughputVal.finite ((((1000 : ℕ) : ℚ) - 1) / (2 - 1)),
        ThroughputVal.finite (((1048576 : ℕ) : ℚ) / (2 - 1) / (1024 * 1024))) ∧
    subBitRate (ThroughputVal.finite (((1048576 : ℕ) : ℚ) / (2 - 1) / (1024 * 1024))) =
      ThroughputVal.finite (((1048576 : ℕ) : ℚ) / (2 - 1) / (1024 * 1024) * 8) :=
  C1_amended_report 1 2 1000 1048576 (by norm_num) (by norm_num) (by norm_num)
    (by norm_num)

/-- C4 fails on the code in one corner: when both arrival timestamps are
exactly 0 (a reachable Reception Window when `perf_counter` reads 0 at
the first batch, shown here by a concrete two-sample run), the guard
`if first_msg_time and last_msg_time and received_count > 1` is falsy by
Python truthiness, so the rates are reported as zero, not as the claimed
infinity sentinel, even though `receivedCount = 2 > 1` and
`last - first = 0`. -/
theorem C4_counterexample :
    runLoop 2 30 (fun n => (n : ℚ) - 2)
        (fun p => if p = 0 then [Sample.data [0], Sample.data [0]] else [])
        2 recvInit =
      some (Terminal.complete, ⟨2, 2, some 0, some 0, 3, 1⟩) ∧
    1 < (2 : ℕ) ∧
    (some (0 : ℚ)).getD 0 - (some (0 : ℚ)).getD 0 = 0 ∧
    subComputeThroughput (some 0) (some 0) 2 2 =
      (0, ThroughputVal.finite 0, ThroughputVal.finite 0) ∧
    ThroughputVal.finite (0 : ℚ) ≠ ThroughputVal.inf := by
  refine ⟨?_, by norm_num, by norm_num, ?_, by simp⟩
  · norm_num [runLoop, recvInit, processBatch, processSample]
  · norm_num [subComputeThroughput, pyTruthy]

/-- C4 (amended): a final window with `receivedCount <= 1` reports
elapsed and both rates as zero, unconditionally; a final window with
`receivedCount > 1`, both arrival timestamps recorded and nonzero, and
`last - first = 0` reports both rates as the infinity sentinel. -/
theorem C4_degenerate_report :
    (∀ (first last : Option ℚ) (received totalBytes : ℕ), received ≤ 1 →
        subComputeThroughput first last received totalBytes =
          (0, ThroughputVal.finite 0, ThroughputVal.finite 0)) ∧
    (∀ (a b : ℚ) (received totalBytes : ℕ),
        a ≠ 0 → b ≠ 0 → 1 < received → b - a = 0 →
        subComputeThroughput (some a) (some b) received totalBytes =
          (0, ThroughputVal.inf, ThroughputVal.inf)) := by
  constructor
  · intro first last received totalBytes hle
    have h : decide (1 < received) = false := by
      simp [decide_eq_false_iff_not]
      omega
    simp [subComputeThroughput, h]
  · intro a b received totalBytes ha hb hrec hba
    have hcond : (pyTruthy (some a) && pyTruthy (some b) && decide (1 < received))
        = true := by
      simp [pyTruthy, ha, hb, hrec]
    simp [subComputeThroughput, hcond, hba]

/-- Witness for C4 (amended) at `receivedCount = 1` and at
`(first, last) = (1, 1)`, `receivedCount = 2`. -/
theorem C4_degenerate_report_witness :
    subComputeThroughput none none 1 5 =
      (0, ThroughputVal.finite 0, ThroughputVal.finite 0) ∧
    subComputeThroughput (some 1) (some 1) 2 7 =
      (0, ThroughputVal.inf, ThroughputVal.inf) :=
  ⟨C4_degenerate_report.1 none none 1 5 (by norm_num),
    C4_degenerate_report.2 1 1 2 7 (by norm_num) (by norm_num) (by norm_num)
      (by norm_num)⟩

/-- C2: the payload generator returns a sequence of length exactly `size`
whose byte at every index `i` is `i mod 256`, deterministically. -/
theorem C2_payload_generator (size : ℕ) :
    (make_data_bytes size).length = size ∧
    (∀ i, i < size → (make_data_bytes size).getD i 0 = i % 256) ∧
    make_data_bytes size = make_data_bytes size := by
  refine ⟨by simp [make_data_bytes], fun i hi => ?_, rfl⟩
  have hlen : i < (make_data_bytes size).length := by
    simpa [make_data_bytes] using hi
  rw [List.getD_eq_getElem _ _ hlen]
  simp [make_data_bytes]

/-- Witness for C2 at `size = 3`, `i = 2`. -/
theorem C2_payload_generator_witness :
    (make_data_bytes 3).length = 3 ∧ (make_data_bytes 3).getD 2 0 = 2 % 256 :=
  ⟨(C2_payload_generator 3).1, (C2_payload_generator 3).2.1 2 (by decide)⟩

/-- C3: for `rate > 0` the pacing decision is
`max 0 ((i+1)*(1/rate) - (now - start))`, scheduled targets are spaced
exactly `1/rate` apart, the slept time is never negative, and for
`rate = 0` no pacing delay is applied (a loop step takes exactly the
write duration). -/
theorem C3_rate_pacer :
    (∀ (rate now start : ℚ) (i : ℕ), 0 < rate →
        sleepDecision rate now start i =
          max 0 (((i : ℚ) + 1) * (1 / rate) - (now - start))) ∧
    (∀ (rate : ℚ) (i : ℕ), 0 < rate →
        pacerExpected rate (i + 1) - pacerExpected rate i = 1 / rate) ∧
    (∀ (rate now start : ℚ) (i : ℕ), 0 ≤ sleepDecision rate now start i) ∧
    (∀ (now start : ℚ) (i : ℕ), sleepDecision 0 now start i = 0) ∧
    (∀ (start t : ℚ) (wdur : ℕ → ℚ) (i : ℕ),
        pubStep 0 start wdur t i = t + wdur i) := by
  have hzero : ∀ (now start : ℚ) (i : ℕ), sleepDecision 0 now start i = 0 := by
    intro now start i
    simp [sleepDecision, pubInterval]
  refine ⟨?_, ?_, ?_, hzero, ?_⟩
  · intro rate now start i hr
    have hi : pubInterval rate = 1 / rate := by simp [pubInterval, hr]
    have hpos : 0 < pubInterval rate := by
      rw [hi]; positivity
    simp only [sleepDecision, hi, if_pos (hi ▸ hpos)]
    rcases lt_or_le 0 (((i : ℚ) + 1) * (1 / rate) - (now - start)) with h | h
    · rw [if_pos h, max_eq_right h.le]
    · rw [if_neg (not_lt.mpr h), max_eq_left h]
  · intro rate i hr
    simp only [pacerExpected, pubInterval, if_pos hr]
    push_cast
    ring
  · intro rate now start i
    simp only [sleepDecision]
    split_ifs with h1 h2
    · exact le_of_lt h2
    · exact le_refl 0
    · exact le_refl 0
  · intro start t wdur i
    simp [pubStep, hzero]

/-- Witness for C3 at `rate = 2`, `now = start = 0`, `i = 0`. -/
theorem C3_rate_pacer_witness :
    sleepDecision 2 0 0 0 = max 0 ((((0 : ℕ) : ℚ) + 1) * (1 / 2) - (0 - 0)) ∧
    pacerExpected 2 (0 + 1) - pacerExpected 2 0 = 1 / 2 :=
  ⟨C3_rate_pacer.1 2 0 0 0 (by norm_num), C3_rate_pacer.2.1 2 0 (by norm_num)⟩

/-- C7 fails on the code as worded: a non-empty batch consisting of a
single lifecycle notice leaves the Reception Window entirely unchanged,
so `firstArrivalTime` is not assigned on the first non-empty batch and
`lastArrivalTime` is not updated on every non-empty batch. -/
theorem C7_counterexample :
    processBatch 5 [Sample.notice] recvInit = recvInit ∧
    ([Sample.notice] : List Sample) ≠ [] ∧
    recvInit.first = none ∧ recvInit.last = none :=
  ⟨rfl, by simp, rfl, rfl⟩

/-- C7 (amended): `receivedCount` and `totalBytes` never decrease, per
batch and across the whole loop; `firstArrivalTime`, once set, is never
changed; it is assigned (to the batch arrival instant) on the first
batch containing a valid data sample; and `lastArrivalTime` is updated
on every batch containing at least one valid data sample. -/
theorem C7_window_monotone :
    (∀ (now : ℚ) (batch : List Sample) (s : RecvState),
        s.received ≤ (processBatch now batch s).received ∧
        s.totalBytes ≤ (processBatch now batch s).totalBytes) ∧
    (∀ (now : ℚ) (batch : List Sample) (s : RecvState) (v : ℚ),
        s.first = some v → (processBatch now batch s).first = some v) ∧
    (∀ (now : ℚ) (batch : List Sample) (s : RecvState),
        s.first = none → batch.any Sample.isData = true →
        (processBatch now batch s).first = some now) ∧
    (∀ (now : ℚ) (batch : List Sample) (s : RecvState),
        batch.any Sample.isData = true →
        (processBatch now batch s).last = some now) ∧
    (∀ (count : ℕ) (timeout : ℚ) (clock : ℕ → ℚ) (trace : ℕ → List Sample)
        (fuel : ℕ) (s : RecvState) (t : Terminal) (s' : RecvState),
        runLoop count timeout clock trace fuel s = some (t, s') →
        s.received ≤ s'.received ∧ s.totalBytes ≤ s'.totalBytes ∧
          ∀ v, s.first = some v → s'.first = some v) := by
  refine ⟨fun now batch s => ⟨?_, ?_⟩, processBatch_first_some,
    processBatch_first_of_data, processBatch_last_of_data, runLoop_window_mono⟩
  · rw [processBatch_received]
    exact Nat.le_add_right _ _
  · rw [processBatch_totalBytes]
    exact Nat.le_add_right _ _

/-- Witness for C7 (amended): a one-sample data batch at instant 1 sets
both timestamps of the fresh window to 1. -/
theorem C7_window_monotone_witness :
    (processBatch 1 [Sample.data []] recvInit).first = some 1 ∧
    (processBatch 1 [Sample.data []] recvInit).last = some 1 :=
  ⟨C7_window_monotone.2.2.1 1 [Sample.data []] recvInit rfl (by decide),
    C7_window_monotone.2.2.2.1 1 [Sample.data []] recvInit (by decide)⟩

/-- C8 fails on the code as worded: a strictly increasing clock that
stays bounded (here `clock n = 1 - 1/(n+1)`, which never gets within the
30-second timeout budget of its start) combined with a transport that
never delivers keeps the loop spinning forever, for every amount of
fuel. -/
theorem C8_counterexample :
    ¬ ∀ (count : ℕ) (timeout : ℚ) (clock : ℕ → ℚ) (trace : ℕ → List Sample),
        StrictMono clock →
        ∃ (fuel : ℕ) (r : Terminal × RecvState),
          runLoop count timeout clock trace fuel recvInit = some r := by
  intro h
  have hmono : StrictMono (fun n : ℕ => 1 - 1 / ((n : ℚ) + 1)) := by
    intro a b hab
    have ha : (0 : ℚ) < (a : ℚ) + 1 := by positivity
    have hlt : ((a : ℚ) + 1) < ((b : ℚ) + 1) := by
      have : (a : ℚ) < (b : ℚ) := by exact_mod_cast hab
      linarith
    have := one_div_lt_one_div_of_lt ha hlt
    simp only
    linarith
  obtain ⟨fuel, r, hr⟩ :=
    h 1 30 (fun n : ℕ => 1 - 1 / ((n : ℚ) + 1)) (fun _ => []) hmono
  rw [runLoop_none_of_bounded 1 30 _ _ ?_ (fun p => rfl) fuel recvInit
      (by norm_num [recvInit])] at hr
  · exact Option.noConfusion hr
  · intro n
    have hpos : (0 : ℚ) < ((n : ℚ) + 1)⁻¹ := by positivity
    show (1 : ℚ) - 1 / ((n : ℚ) + 1) - (1 - 1 / (((0 : ℕ) : ℚ) + 1)) ≤ 30
    norm_num
    linarith

/-- C8 (amended): for every transport trace and every strictly
increasing clock that eventually exceeds its starting value by more than
the timeout, the polling loop terminates, and any terminal state is
either `complete` (entered only with `receivedCount >= expectedCount`)
or `timeout` (entered only when the last timeout check exceeded the
budget); the partial window is carried out of the loop in both cases. -/
theorem C8_loop_termination (count : ℕ) (timeout : ℚ) (clock : ℕ → ℚ)
    (trace : ℕ → List Sample) (hmono : StrictMono clock)
    (hdiv : ∃ n, clock 0 + timeout < clock n) :
    (∃ (fuel : ℕ) (r : Terminal × RecvState),
        runLoop count timeout clock trace fuel recvInit = some r) ∧
    (∀ (fuel : ℕ) (t : Terminal) (s : RecvState),
        runLoop count timeout clock trace fuel recvInit = some (t, s) →
        (t = Terminal.complete → count ≤ s.received) ∧
        (t = Terminal.timeout → timeout < clock (s.clockIdx - 1) - clock 0)) := by
  obtain ⟨n0, hn0⟩ := hdiv
  have hge : ∀ n, n0 ≤ n → timeout < clock n - clock 0 := by
    intro n hn
    have := hmono.monotone hn
    linarith
  refine ⟨⟨n0 + 1, ?_⟩,
    fun fuel t s h => runLoop_terminal_char count timeout clock trace fuel recvInit t s h⟩
  have hs := runLoop_isSome count timeout clock trace n0 hge (n0 + 1) recvInit
    (by simp [recvInit]) (by omega)
  obtain ⟨r, hr⟩ := Option.isSome_iff_exists.mp hs
  exact ⟨r, hr⟩

/-- Witness for C8 (amended) with the identity clock, a silent
transport, one expected message and a one-second timeout. -/
theorem C8_loop_termination_witness :
    (∃ (fuel : ℕ) (r : Terminal × RecvState),
        runLoop 1 1 (fun n : ℕ => (n : ℚ)) (fun _ => []) fuel recvInit = some r) ∧
    (∀ (fuel : ℕ) (t : Terminal) (s : RecvState),
        runLoop 1 1 (fun n : ℕ => (n : ℚ)) (fun _ => []) fuel recvInit = some (t, s) →
        (t = Terminal.complete → 1 ≤ s.received) ∧
        (t = Terminal.timeout → 1 < (fun n : ℕ => (n : ℚ)) (s.clockIdx - 1) -
          (fun n : ℕ => (n : ℚ)) 0)) :=
  C8_loop_termination 1 1 (fun n : ℕ => (n : ℚ)) (fun _ => [])
    (fun a b hab => by
      show (a : ℚ) < (b : ℚ)
      exact_mod_cast hab) ⟨2, by norm_num⟩

/-- C10: the loop guard is only checked between polls and a taken batch
is processed in full, so a two-sample batch against `expectedCount = 1`
ends the run Complete with `receivedCount = 2 > 1` and no loss figure. -/
theorem C10_overshoot :
    ∃ s : RecvState,
      runLoop 1 30 (fun n : ℕ => (n : ℚ))
          (fun p => if p = 0 then [Sample.data [0], Sample.data [0]] else [])
          2 recvInit = some (Terminal.complete, s) ∧
      1 < s.received ∧ lossReport s.received 1 = none := by
  refine ⟨⟨2, 2, some 2, some 2, 3, 1⟩, ?_, by norm_num, by norm_num [lossReport]⟩
  norm_num [runLoop, recvInit, processBatch, processSample]

/-- C9: the publisher's total run decomposes as the fixed pre-roll
Connecting wait, then the measured Sending span, then the reliable
Draining wait; the reported figures over that span are
`messageRate = count/elapsed`, `byteRate = (size*count)/elapsed` scaled
by 1/(1024*1024) into MiB units, and `bitRate = byteRate*8` in the same
base. -/
theorem C9_publisher_report (reliable : Bool) (rate : ℚ) (count size : ℕ)
    (wdur : ℕ → ℚ) :
    pubFinalTime reliable rate count wdur =
      connectWait + pubElapsed rate count wdur + drainWait reliable ∧
    pubReport count size (pubElapsed rate count wdur) =
      ((count : ℚ) / pubElapsed rate count wdur,
        ((size * count : ℕ) : ℚ) / pubElapsed rate count wdur / (1024 * 1024),
        ((size * count : ℕ) : ℚ) / pubElapsed rate count wdur / (1024 * 1024) * 8) := by
  constructor
  · simp only [pubFinalTime, pubElapsed]
    ring
  · rfl

lemma runLoop_first_poll (count : ℕ) (timeout : ℚ) (clock : ℕ → ℚ) (b : List Sample)
    (hc : 0 < count) (hto : clock 1 - clock 0 ≤ timeout) (fuel : ℕ) :
    runLoop count timeout clock (fun p => if p = 0 then b else []) (fuel + 1) recvInit =
      if b.isEmpty then
        runLoop count timeout clock (fun p => if p = 0 then b else []) fuel
          ⟨0, 0, none, none, 2, 1⟩
      else
        runLoop count timeout clock (fun p => if p = 0 then b else []) fuel
          (processBatch (clock 2) b ⟨0, 0, none, none, 3, 1⟩) := by
  have hne : ¬ (timeout < clock 1 - clock 0) := not_lt.mpr hto
  simp only [runLoop, recvInit]
  rw [if_pos hc, if_neg hne]
  norm_num

/-- C5: a loss rate is reported iff the final `receivedCount` is below
`expectedCount`, its value is `(expected - received)/expected * 100`,
and a transport that delivers its only batch on the first poll and then
stays silent, under a strictly increasing clock that lets the first poll
happen but eventually exceeds the timeout budget, ends the run in
Timeout with `receivedCount = k` (the number of valid samples in that
batch) and loss `(count - k)/count * 100`. -/
theorem C5_loss_reporting :
    (∀ received expected : ℕ,
        (lossReport received expected).isSome ↔ received < expected) ∧
    (∀ received expected : ℕ, received < expected →
        lossReport received expected =
          some (((expected : ℚ) - (received : ℚ)) / (expected : ℚ) * 100)) ∧
    (∀ (b : List Sample) (count : ℕ) (timeout : ℚ) (clock : ℕ → ℚ),
        StrictMono clock → clock 1 - clock 0 ≤ timeout →
        (∃ n, clock 0 + timeout < clock n) →
        b.countP Sample.isData < count →
        (∃ (fuel : ℕ) (r : Terminal × RecvState),
            runLoop count timeout clock (fun p => if p = 0 then b else [])
              fuel recvInit = some r) ∧
        (∀ (fuel : ℕ) (t : Terminal) (s : RecvState),
            runLoop count timeout clock (fun p => if p = 0 then b else [])
              fuel recvInit = some (t, s) →
            t = Terminal.timeout ∧ s.received = b.countP Sample.isData ∧
              lossReport s.received count =
                some (((count : ℚ) - (b.countP Sample.isData : ℚ)) /
                  (count : ℚ) * 100))) := by
  refine ⟨lossReport_isSome_iff, fun r e h => lossReport_of_lt h, ?_⟩
  intro b count timeout clock hS hfirst hdiv hk
  have hc : 0 < count := lt_of_le_of_lt (Nat.zero_le _) hk
  obtain ⟨n0, hn0⟩ := hdiv
  have hge : ∀ n, n0 ≤ n → timeout < clock n - clock 0 := by
    intro n hn
    have := hS.monotone hn
    linarith
  set sAfter : RecvState :=
    if b.isEmpty then ⟨0, 0, none, none, 2, 1⟩
    else processBatch (clock 2) b ⟨0, 0, none, none, 3, 1⟩ with hsAfter
  have hrecv : sAfter.received = b.countP Sample.isData := by
    rw [hsAfter]
    split_ifs with hb
    · have hb' : b = [] := by
        cases b with
        | nil => rfl
        | cons a l => simp at hb
      simp [hb']
    · rw [processBatch_received]
      simp
  have hpoll : sAfter.pollIdx = 1 := by
    rw [hsAfter]
    split_ifs with hb
    · rfl
    · rw [processBatch_pollIdx]
  have hrc : sAfter.received < count := by rw [hrecv]; exact hk
  have htail : ∀ p, sAfter.pollIdx ≤ p →
      (fun p => if p = 0 then b else []) p = [] := by
    intro p hp
    rw [hpoll] at hp
    show (if p = 0 then b else []) = []
    rw [if_neg (by omega)]
  have hstep : ∀ fuel,
      runLoop count timeout clock (fun p => if p = 0 then b else [])
        (fuel + 1) recvInit =
      runLoop count timeout clock (fun p => if p = 0 then b else []) fuel sAfter := by
    intro fuel
    rw [runLoop_first_poll count timeout clock b hc hfirst fuel, hsAfter]
    split_ifs with hb
    · rfl
    · rfl
  constructor
  · refine ⟨n0 + 1 + 1, ?_⟩
    rw [hstep]
    have hs := runLoop_isSome count timeout clock
      (fun p => if p = 0 then b else []) n0 hge (n0 + 1) sAfter
      (by omega) (by omega)
    obtain ⟨r, hr⟩ := Option.isSome_iff_exists.mp hs
    exact ⟨r, hr⟩
  · intro fuel t s h
    cases fuel with
    | zero => simp [runLoop] at h
    | succ fuel =>
      rw [hstep] at h
      obtain ⟨ht, hre, -, -, -⟩ :=
        runLoop_empty_tail count timeout clock
          (fun p => if p = 0 then b else []) fuel sAfter htail hrc t s h
      refine ⟨ht, by rw [hre, hrecv], ?_⟩
      rw [hre, hrecv]
      exact lossReport_of_lt hk

/-- Witness for C5 with one valid sample in the first poll,
`expectedCount = 2`, a five-second timeout and the identity clock. -/
theorem C5_loss_reporting_witness :
    lossReport 1 2 =
      some ((((2 : ℕ) : ℚ) - ((1 : ℕ) : ℚ)) / ((2 : ℕ) : ℚ) * 100) ∧
    ((∃ (fuel : ℕ) (r : Terminal × RecvState),
        runLoop 2 5 (fun n : ℕ => (n : ℚ))
          (fun p => if p = 0 then [Sample.data [0]] else []) fuel recvInit =
            some r) ∧
      (∀ (fuel : ℕ) (t : Terminal) (s : RecvState),
          runLoop 2 5 (fun n : ℕ => (n : ℚ))
            (fun p => if p = 0 then [Sample.data [0]] else []) fuel recvInit =
              some (t, s) →
          t = Terminal.timeout ∧
            s.received = ([Sample.data [0]] : List Sample).countP Sample.isData ∧
            lossReport s.received 2 =
              some ((((2 : ℕ) : ℚ) -
                  ((([Sample.data [0]] : List Sample).countP Sample.isData : ℕ) : ℚ)) /
                ((2 : ℕ) : ℚ) * 100))) :=
  ⟨C5_loss_reporting.2.1 1 2 (by norm_num),
    C5_loss_reporting.2.2 [Sample.data [0]] 2 5 (fun n : ℕ => (n : ℚ))
      (fun a b hab => by
        show (a : ℚ) < (b : ℚ)
        exact_mod_cast hab)
      (by norm_num) ⟨6, by norm_num⟩ (by decide)⟩
